import Mathlib

/-!
Verification of the cw-tierlist contract core (src/state.rs, src/contract.rs).

The Rust data types and functions are embedded shallowly: `u64` becomes `Nat`
with an explicit `% 2 ^ 64` where the counter is advanced, storage maps become
association lists, fallible operations return `Except ContractError`, and a
Rust panic (`unwrap`) is modelled by `Option` with `none` for the panic.
-/

/-- Mirrors `TierlistItem` in src/state.rs: a name and an optional image. -/
structure TierlistItem where
  name : String
  image_url : Option String
deriving DecidableEq

/-- Mirrors `TierlistTemplate` in src/state.rs. -/
structure TierlistTemplate where
  id : Nat
  title : String
  items : List TierlistItem
  creator : String
deriving DecidableEq

/-- Mirrors `Tierlist` in src/state.rs: a ranking a user is completing.
Unassigned items point to a blank string. -/
structure Tierlist where
  template_id : Nat
  items_to_tiers : List (TierlistItem × String)
deriving DecidableEq

/-- Mirrors `Config` in src/state.rs. -/
structure Config where
  admin_address : String
deriving DecidableEq

/-- Lexicographic order on character lists by code point. -/
def charListLt : List Char → List Char → Bool
  | [], [] => false
  | [], _ :: _ => true
  | _ :: _, [] => false
  | a :: as, b :: bs =>
    if a.toNat < b.toNat then true
    else if b.toNat < a.toNat then false
    else charListLt as bs

/-- Rust's `String` order (`Ord::cmp`, byte-wise on UTF-8): byte-wise UTF-8
order coincides with lexicographic order on code points. -/
def strLt (a b : String) : Bool := charListLt a.data b.data

/-- Stable insertion of an item into a list sorted by `name` alone, the
comparator used by `sort_by(|a, b| a.name.cmp(&b.name))` in
`Tierlist::validate_against_template`. -/
def insertByName (x : TierlistItem) : List TierlistItem → List TierlistItem
  | [] => [x]
  | y :: ys => if strLt y.name x.name then y :: insertByName x ys else x :: y :: ys

/-- Stable sort by `name` alone, modelling Rust's stable `sort_by` with the
comparator `a.name.cmp(&b.name)` from `Tierlist::validate_against_template`. -/
def sortByName : List TierlistItem → List TierlistItem
  | [] => []
  | x :: xs => insertByName x (sortByName xs)

/-- Mirrors `Tierlist::from_template` in src/state.rs: one `(item, "")` pair
per template item, in template order. -/
def Tierlist.from_template (template : TierlistTemplate) : Tierlist :=
  { items_to_tiers := template.items.map (fun item => (item, "")),
    template_id := template.id }

/-- Mirrors `Tierlist::validate_against_template` in src/state.rs: id check,
then both item lists are sorted by name (only) and compared. -/
def Tierlist.validate_against_template (self : Tierlist) (template : TierlistTemplate) : Bool :=
  if self.template_id ≠ template.id then
    false
  else
    let items := self.items_to_tiers.map (fun i => i.1)
    let template_items := template.items
    decide (sortByName items = sortByName template_items)

/-- Mirrors `Tierlist::assign` in src/state.rs, faithfully including the `else`
branch `(cloned_item, i.clone().1)`, which pairs the *argument* item (not the
entry's own item `i.0`) with the entry's old tier. -/
def Tierlist.assign (self : Tierlist) (item : TierlistItem) (tier : String) : Tierlist :=
  { self with
      items_to_tiers :=
        self.items_to_tiers.map (fun i =>
          if i.1 = item then (item, tier) else (item, i.2)) }

/-- Mirrors `Tierlist::get_tier` in src/state.rs: the tier of the first entry
whose item equals `item`; the source `unwrap()`s when no entry matches, which
is modelled by `none`. -/
def Tierlist.get_tier (self : Tierlist) (item : TierlistItem) : Option String :=
  match self.items_to_tiers.find? (fun i => decide (i.1 = item)) with
  | none => none
  | some e => some e.2

/-- Modelled from the spec: src/error.rs is not part of the provided sources;
the variants follow the error taxonomy of the spec (Unauthorized, NotFound,
InvalidRanking/InvalidTierlist) used by src/contract.rs. -/
inductive ContractError where
  | notFound
  | unauthorized
  | invalidTierlist
deriving DecidableEq

/-- Association-list lookup, modelling `Map::load`/`may_load` point reads of
cw-storage-plus (first entry with the key wins; keys are kept unique by
`storePut`). -/
def storeLookup {κ ν : Type} [DecidableEq κ] (l : List (κ × ν)) (k : κ) : Option ν :=
  match l with
  | [] => none
  | e :: rest => if e.1 = k then some e.2 else storeLookup rest k

/-- Association-list point delete, modelling `Map::remove`. -/
def storeDelete {κ ν : Type} [DecidableEq κ] (l : List (κ × ν)) (k : κ) : List (κ × ν) :=
  match l with
  | [] => []
  | e :: rest => if e.1 = k then storeDelete rest k else e :: storeDelete rest k

/-- Association-list insert-or-overwrite, modelling `Map::save`. -/
def storePut {κ ν : Type} [DecidableEq κ] (l : List (κ × ν)) (k : κ) (v : ν) : List (κ × ν) :=
  (k, v) :: storeDelete l k

/-- The contract storage: `CONFIG`, `NEXT_ID`, `TIERLIST_TEMPLATES` and
`TIERLISTS` of src/state.rs. `next_id = none` models the item not yet written. -/
structure ContractState where
  config : Config
  next_id : Option Nat
  templates : List (Nat × TierlistTemplate)
  tierlists : List ((String × Nat) × Tierlist)
deriving DecidableEq

/-- `u64` modulus for the id counter. -/
def U64_MOD : Nat := 2 ^ 64

/-- `NEXT_ID.may_load(..)?.unwrap_or_default()` in `execute_create_template`. -/
def nextIdVal (st : ContractState) : Nat := st.next_id.getD 0

/-- Mirrors `execute_create_template` in src/contract.rs: reads the counter
(defaulting to 0), stores `counter + 1` (as u64), and saves the new template
under the allocated id with the sender as creator. Always succeeds. -/
def execute_create_template (st : ContractState) (sender : String)
    (title : String) (items : List TierlistItem) : ContractState :=
  let id := nextIdVal st
  let template : TierlistTemplate :=
    { id := id, title := title, items := items, creator := sender }
  { st with
      next_id := some ((id + 1) % U64_MOD),
      templates := storePut st.templates id template }

/-- Mirrors `execute_delete_template` in src/contract.rs: loads the template
(`NotFound` when absent), then checks creator-or-admin, then removes. -/
def execute_delete_template (st : ContractState) (sender : String) (id : Nat) :
    Except ContractError ContractState :=
  match storeLookup st.templates id with
  | none => Except.error ContractError.notFound
  | some template =>
    if sender ≠ template.creator ∧ sender ≠ st.config.admin_address then
      Except.error ContractError.unauthorized
    else
      Except.ok { st with templates := storeDelete st.templates id }

/-- Mirrors `execute_edit_template` in src/contract.rs: loads the existing
template (`NotFound` when absent), checks creator-or-admin, then stores a new
record with the given title and items, the `creator` copied from the existing
record. -/
def execute_edit_template (st : ContractState) (sender : String) (id : Nat)
    (title : String) (items : List TierlistItem) : Except ContractError ContractState :=
  match storeLookup st.templates id with
  | none => Except.error ContractError.notFound
  | some existing_template =>
    if sender ≠ existing_template.creator ∧ sender ≠ st.config.admin_address then
      Except.error ContractError.unauthorized
    else
      let template : TierlistTemplate :=
        { id := id, title := title, items := items,
          creator := existing_template.creator }
      Except.ok { st with templates := storePut st.templates id template }

/-- Mirrors `execute_save_tierlist` in src/contract.rs: loads the template
referenced by `tierlist.template_id` (`NotFound` when absent), validates, and
stores the tierlist under the key `(sender, template_id)`. -/
def execute_save_tierlist (st : ContractState) (sender : String) (tierlist : Tierlist) :
    Except ContractError ContractState :=
  match storeLookup st.templates tierlist.template_id with
  | none => Except.error ContractError.notFound
  | some template =>
    let id := tierlist.template_id
    if tierlist.validate_against_template template then
      Except.ok { st with tierlists := storePut st.tierlists (sender, id) tierlist }
    else
      Except.error ContractError.invalidTierlist

/-- Mirrors `TierlistResponse` in src/msg.rs. -/
structure TierlistResponse where
  tierlist : Option Tierlist
deriving DecidableEq

/-- `DEFAULT_LIMIT` in src/contract.rs. -/
def DEFAULT_LIMIT : Nat := 10

/-- Stable insertion by `Nat` key, used to model the ascending key order of a
`Map` range scan over an association list. -/
def insertByKey (x : Nat × Tierlist) : List (Nat × Tierlist) → List (Nat × Tierlist)
  | [] => [x]
  | y :: ys => if y.1 < x.1 then y :: insertByKey x ys else x :: y :: ys

/-- Ascending sort by `Nat` key for the modelled range scan. -/
def sortByKey : List (Nat × Tierlist) → List (Nat × Tierlist)
  | [] => []
  | x :: xs => insertByKey x (sortByKey xs)

/-- Mirrors `query_tierlist` in src/contract.rs. The host address validator is
a parameter `api`; the source `unwrap()`s its result, modelled by `none`
(panic) when the validator rejects the address. -/
def query_tierlist (api : String → Bool) (st : ContractState)
    (address : String) (id : Nat) : Option TierlistResponse :=
  if api address then
    some { tierlist := storeLookup st.tierlists (address, id) }
  else
    none

/-- Mirrors `query_tierlists_by_address` in src/contract.rs: validator
`unwrap()` (modelled by `none` on rejection), then an ascending range scan of
the sender's tierlist partition from an exclusive `start_after` bound, taking
at most `limit` (default `DEFAULT_LIMIT`) entries. -/
def query_tierlists_by_address (api : String → Bool) (st : ContractState)
    (address : String) (start_after : Option Nat) (limit : Option Nat) :
    Option (List (Nat × Tierlist)) :=
  if api address then
    let entries := st.tierlists.filterMap (fun e =>
      if e.1.1 = address then some (e.1.2, e.2) else none)
    let sorted := sortByKey entries
    let bounded := match start_after with
      | none => sorted
      | some k => sorted.filter (fun e => decide (k < e.1))
    some (bounded.take (limit.getD DEFAULT_LIMIT))
  else
    none

/-- The logical operations of the execute entry point (src/msg.rs
`ExecuteMsg`), with the sender of the message. -/
inductive Op where
  | create (sender title : String) (items : List TierlistItem)
  | deleteTemplate (sender : String) (id : Nat)
  | editTemplate (sender : String) (id : Nat) (title : String) (items : List TierlistItem)
  | saveTierlist (sender : String) (tl : Tierlist)

/-- One transaction against the store: a failed execution commits nothing
(the host reverts all writes on error), a successful one commits its result. -/
def applyOp (st : ContractState) : Op → ContractState
  | Op.create sender title items => execute_create_template st sender title items
  | Op.deleteTemplate sender id =>
    match execute_delete_template st sender id with
    | Except.ok st' => st'
    | Except.error _ => st
  | Op.editTemplate sender id title items =>
    match execute_edit_template st sender id title items with
    | Except.ok st' => st'
    | Except.error _ => st
  | Op.saveTierlist sender tl =>
    match execute_save_tierlist st sender tl with
    | Except.ok st' => st'
    | Except.error _ => st

/-- Run a sequence of transactions. -/
def runOps (st : ContractState) (ops : List Op) : ContractState :=
  ops.foldl applyOp st

/-- Number of `create` operations in a trace. -/
def countCreates (ops : List Op) : Nat :=
  ops.countP (fun op => match op with
    | Op.create _ _ _ => true
    | _ => false)

/-- The state right after `instantiate` (src/contract.rs): config written,
no counter, no templates, no tierlists. -/
def initialState (admin : String) : ContractState :=
  { config := { admin_address := admin },
    next_id := none, templates := [], tierlists := [] }

/-- Strict order on optional strings with `none` before every `some`, the
derived Rust `Ord` on `Option<String>`. Used only by the spec-side item
order below. -/
def optStringLt : Option String → Option String → Bool
  | none, none => false
  | none, some _ => true
  | some _, none => false
  | some a, some b => strLt a b

/-- The spec's total order over items: "by name, ties broken by image_url".
This is the order the spec claims `validate` sorts with; it is kept separate
from `sortByName`, which is what the source actually uses. -/
def itemLtSpec (a b : TierlistItem) : Bool :=
  strLt a.name b.name ||
    (decide (a.name = b.name) && optStringLt a.image_url b.image_url)

/-- Stable insertion for the spec-side order. -/
def insertByNameImage (x : TierlistItem) : List TierlistItem → List TierlistItem
  | [] => [x]
  | y :: ys => if itemLtSpec y x then y :: insertByNameImage x ys else x :: y :: ys

/-- Sort by the spec's total order (name, then image_url as tie-break). -/
def sortByNameImage : List TierlistItem → List TierlistItem
  | [] => []
  | x :: xs => insertByNameImage x (sortByNameImage xs)

/-! ### Association-list store lemmas -/

theorem storeLookup_delete_self {κ ν : Type} [DecidableEq κ]
    (l : List (κ × ν)) (k : κ) : storeLookup (storeDelete l k) k = none := by
  induction l with
  | nil => rfl
  | cons e rest ih =>
    by_cases he : e.1 = k
    · simpa [storeDelete, he] using ih
    · simp [storeDelete, storeLookup, he, ih]

theorem storeLookup_delete_ne {κ ν : Type} [DecidableEq κ]
    (l : List (κ × ν)) (k k' : κ) (h : k' ≠ k) :
    storeLookup (storeDelete l k) k' = storeLookup l k' := by
  induction l with
  | nil => rfl
  | cons e rest ih =>
    by_cases he : e.1 = k
    · have hk' : e.1 ≠ k' := by rw [he]; exact Ne.symm h
      simp [storeDelete, storeLookup, he, hk', ih, Ne.symm h]
    · by_cases he' : e.1 = k'
      · simp [storeDelete, storeLookup, he, he', h]
      · simp [storeDelete, storeLookup, he, he', ih]

theorem storeLookup_put_self {κ ν : Type} [DecidableEq κ]
    (l : List (κ × ν)) (k : κ) (v : ν) :
    storeLookup (storePut l k v) k = some v := by
  simp [storePut, storeLookup]

theorem storeLookup_put_ne {κ ν : Type} [DecidableEq κ]
    (l : List (κ × ν)) (k k' : κ) (v : ν) (h : k' ≠ k) :
    storeLookup (storePut l k v) k' = storeLookup l k' := by
  simp [storePut, storeLookup, Ne.symm h, storeLookup_delete_ne l k k' h]

theorem storeDelete_subset {κ ν : Type} [DecidableEq κ]
    (l : List (κ × ν)) (k : κ) : ∀ e ∈ storeDelete l k, e ∈ l := by
  induction l with
  | nil => intro e he; simp [storeDelete] at he
  | cons x rest ih =>
    intro e he
    by_cases hx : x.1 = k
    · simp only [storeDelete, if_pos hx] at he
      exact List.mem_cons_of_mem x (ih e he)
    · simp only [storeDelete, if_neg hx, List.mem_cons] at he
      rcases he with h1 | h2
      · exact h1 ▸ List.mem_cons_self x rest
      · exact List.mem_cons_of_mem x (ih e h2)

theorem mem_storePut {κ ν : Type} [DecidableEq κ]
    (l : List (κ × ν)) (k : κ) (v : ν) :
    ∀ e ∈ storePut l k v, e = (k, v) ∨ e ∈ l := by
  intro e he
  rcases List.mem_cons.mp he with h1 | h2
  · exact Or.inl h1
  · exact Or.inr (storeDelete_subset l k e h2)

theorem storeLookup_mem {κ ν : Type} [DecidableEq κ]
    (l : List (κ × ν)) (k : κ) (v : ν) (h : storeLookup l k = some v) : (k, v) ∈ l := by
  induction l with
  | nil => simp [storeLookup] at h
  | cons e rest ih =>
    by_cases he : e.1 = k
    · simp only [storeLookup, if_pos he, Option.some.injEq] at h
      have : e = (k, v) := by
        cases e with
        | mk a b => simp only at he h; simp [he, h]
      exact this ▸ List.mem_cons_self e rest
    · simp only [storeLookup, if_neg he] at h
      exact List.mem_cons_of_mem e (ih h)

theorem storeLookup_eq_none {κ ν : Type} [DecidableEq κ]
    (l : List (κ × ν)) (k : κ) (h : ∀ e ∈ l, e.1 ≠ k) : storeLookup l k = none := by
  induction l with
  | nil => rfl
  | cons e rest ih =>
    have he : e.1 ≠ k := h e (List.mem_cons_self e rest)
    simp only [storeLookup, if_neg he]
    exact ih (fun x hx => h x (List.mem_cons_of_mem e hx))

/-! ### Concrete fixtures -/

def itemA : TierlistItem := { name := "A", image_url := none }

def itemB : TierlistItem := { name := "B", image_url := none }

/-- A ranking over the distinct items A and B, both unassigned. -/
def rankingAB : Tierlist :=
  { template_id := 0, items_to_tiers := [(itemA, ""), (itemB, "")] }

/-- A ranking over A and B with tiers "x" and "y". -/
def rankingXY : Tierlist :=
  { template_id := 0, items_to_tiers := [(itemA, "x"), (itemB, "y")] }

/-- The template matching `rankingAB`. -/
def templateAB : TierlistTemplate :=
  { id := 0, title := "T", items := [itemA, itemB], creator := "alice" }

/-- Two distinct items sharing the name "A", differing in image. -/
def itemA1 : TierlistItem := { name := "A", image_url := some "1" }

def itemA2 : TierlistItem := { name := "A", image_url := some "2" }

/-- A ranking whose items are `[A1, A2]`. -/
def rankingDupNames : Tierlist :=
  { template_id := 0, items_to_tiers := [(itemA1, ""), (itemA2, "")] }

/-- A template whose item list is `[A2, A1]`, a permutation of the items of
`rankingDupNames`. -/
def templateDupNames : TierlistTemplate :=
  { id := 0, title := "t", items := [itemA2, itemA1], creator := "carol" }

/-! ### Claim theorems -/

/-- **C1** (code bug). The claim says `assign` copies entries for non-matching
items entirely unchanged. On the ranking `[(A, ""), (B, "")]`, assigning tier
"S" to item A yields `[(A, "S"), (A, "")]`: the entry for B has had its item
replaced by A (the `else` branch of the source returns `(cloned_item, i.1)`
instead of `(i.0, i.1)`), not the `[(A, "S"), (B, "")]` the claim requires. -/
theorem assign_replaces_items_of_nonmatching_entries :
    (rankingAB.assign itemA "S").items_to_tiers = [(itemA, "S"), (itemA, "")] ∧
    (rankingAB.assign itemA "S").items_to_tiers ≠ [(itemA, "S"), (itemB, "")] := by
  decide

/-- **C3** (code bug). The claim says `tier_of(assign(R, i, l), i) = l`. On
the ranking `[(A, "x"), (B, "y")]`, assigning tier "S" to B yields
`[(B, "x"), (B, "S")]`, whose first entry for B carries tier "x", so
`get_tier` returns "x", not "S". -/
theorem assign_get_tier_no_roundtrip :
    (rankingXY.assign itemB "S").get_tier itemB = some "x" ∧ ("x" : String) ≠ "S" := by
  decide

/-- **C4** (code bug). The claim says `assign` is idempotent. On the ranking
`[(A, "x"), (B, "y")]` with item B and tier "S", one application yields
`[(B, "x"), (B, "S")]` and a second yields `[(B, "S"), (B, "S")]`. -/
theorem assign_not_idempotent :
    (rankingXY.assign itemB "S").assign itemB "S" ≠ rankingXY.assign itemB "S" := by
  decide

/-- **C2 counterexample.** With two items sharing the name "A" but differing
in image, the ranking's items are a permutation of the template's (their
sorts under the spec's name-then-image order coincide) and the ids match, so
the claim requires `validate = true`; but the source sorts by name only
(stably), leaves both lists in their differing original orders, and returns
false. -/
theorem validate_spec_order_counterexample :
    rankingDupNames.template_id = templateDupNames.id ∧
    sortByNameImage (rankingDupNames.items_to_tiers.map (fun i => i.1)) =
      sortByNameImage templateDupNames.items ∧
    rankingDupNames.validate_against_template templateDupNames = false := by
  decide

/-- **C2** (amended). `validate(R, T)` returns true iff `R.template_id = T.id`
and the two item lists, each stably sorted by name alone (image_url is never
consulted as a sort key), are equal element-for-element; tier labels do not
occur in the right-hand side, so they never influence the result. -/
theorem validate_iff_sorted_by_name (R : Tierlist) (T : TierlistTemplate) :
    R.validate_against_template T = true ↔
      (R.template_id = T.id ∧
        sortByName (R.items_to_tiers.map (fun i => i.1)) = sortByName T.items) := by
  unfold Tierlist.validate_against_template
  by_cases h : R.template_id = T.id
  · simp [h]
  · simp [h]

/-- Witness for C2 (amended) at concrete inputs. -/
theorem validate_iff_sorted_by_name_witness :
    rankingAB.validate_against_template templateAB = true ↔
      (rankingAB.template_id = templateAB.id ∧
        sortByName (rankingAB.items_to_tiers.map (fun i => i.1)) =
          sortByName templateAB.items) :=
  validate_iff_sorted_by_name rankingAB templateAB

/-- **C8.** The blank ranking built from a template validates against it:
its template_id is the template's id and its item list is exactly the
template's item list, so both sides sort identically. -/
theorem validate_from_template (template : TierlistTemplate) :
    (Tierlist.from_template template).validate_against_template template = true := by
  unfold Tierlist.from_template Tierlist.validate_against_template
  have h : List.map (fun i : TierlistItem × String => i.1)
      (List.map (fun item : TierlistItem => (item, ("" : String))) template.items)
      = template.items := by
    induction template.items with
    | nil => rfl
    | cons x xs ih => simp [ih]
  simp [h]

/-- A state holding `templateAB` under key 0, as left by one create. -/
def stateWithTemplate : ContractState :=
  { config := { admin_address := "admin" }, next_id := some 1,
    templates := [(0, templateAB)], tierlists := [] }

/-- **C5.** `save` fails `NotFound` when no template with `tl.template_id`
exists, fails `InvalidTierlist` exactly when validation fails, and otherwise
stores the tierlist at the key `(sender, tl.template_id)` — the owner
component is the transaction sender, not a field of the message —
unconditionally overwriting the prior value at that key and leaving every
other key and the rest of the store unchanged. Failures return before the
single write, so a failed save commits nothing. -/
theorem execute_save_tierlist_spec (st : ContractState) (sender : String) (tl : Tierlist) :
    (storeLookup st.templates tl.template_id = none →
      execute_save_tierlist st sender tl = Except.error ContractError.notFound) ∧
    (∀ template, storeLookup st.templates tl.template_id = some template →
      tl.validate_against_template template = false →
      execute_save_tierlist st sender tl = Except.error ContractError.invalidTierlist) ∧
    (∀ template, storeLookup st.templates tl.template_id = some template →
      tl.validate_against_template template = true →
      ∃ st', execute_save_tierlist st sender tl = Except.ok st' ∧
        storeLookup st'.tierlists (sender, tl.template_id) = some tl ∧
        (∀ k, k ≠ (sender, tl.template_id) →
          storeLookup st'.tierlists k = storeLookup st.tierlists k) ∧
        st'.templates = st.templates ∧ st'.next_id = st.next_id ∧
        st'.config = st.config) := by
  refine ⟨?_, ?_, ?_⟩
  · intro h
    simp [execute_save_tierlist, h]
  · intro template h hv
    simp [execute_save_tierlist, h, hv]
  · intro template h hv
    refine ⟨{ st with tierlists := storePut st.tierlists (sender, tl.template_id) tl },
      ?_, ?_, ?_, rfl, rfl, rfl⟩
    · simp [execute_save_tierlist, h, hv]
    · exact storeLookup_put_self st.tierlists (sender, tl.template_id) tl
    · intro k hk
      exact storeLookup_put_ne st.tierlists (sender, tl.template_id) k tl hk

/-- Witness for C5: saving a valid tierlist into `stateWithTemplate`. -/
theorem execute_save_tierlist_spec_witness :
    ∃ st', execute_save_tierlist stateWithTemplate "alice" rankingAB = Except.ok st' ∧
      storeLookup st'.tierlists ("alice", rankingAB.template_id) = some rankingAB ∧
      (∀ k, k ≠ ("alice", rankingAB.template_id) →
        storeLookup st'.tierlists k = storeLookup stateWithTemplate.tierlists k) ∧
      st'.templates = stateWithTemplate.templates ∧
      st'.next_id = stateWithTemplate.next_id ∧
      st'.config = stateWithTemplate.config :=
  (execute_save_tierlist_spec stateWithTemplate "alice" rankingAB).2.2 templateAB
    (by decide) (by decide)

/-- **C6.** For both `delete` and `edit`: when no template with the id exists
the result is `NotFound` (existence is decided before authorization, so a
missing template never surfaces `Unauthorized`); when the template exists the
result is `Unauthorized` precisely when the sender is neither the template's
creator nor the admin, and otherwise the operation succeeds, removing the
record (delete) or replacing it (edit). -/
theorem template_auth_spec (st : ContractState) (sender : String) (id : Nat)
    (title : String) (items : List TierlistItem) :
    (storeLookup st.templates id = none →
      execute_delete_template st sender id = Except.error ContractError.notFound ∧
      execute_edit_template st sender id title items = Except.error ContractError.notFound) ∧
    (∀ t, storeLookup st.templates id = some t →
      ((sender ≠ t.creator ∧ sender ≠ st.config.admin_address) →
        execute_delete_template st sender id = Except.error ContractError.unauthorized ∧
        execute_edit_template st sender id title items =
          Except.error ContractError.unauthorized) ∧
      ((sender = t.creator ∨ sender = st.config.admin_address) →
        (∃ st', execute_delete_template st sender id = Except.ok st' ∧
          storeLookup st'.templates id = none) ∧
        (∃ st', execute_edit_template st sender id title items = Except.ok st' ∧
          storeLookup st'.templates id =
            some { id := id, title := title, items := items, creator := t.creator }))) := by
  refine ⟨?_, ?_⟩
  · intro h
    exact ⟨by simp [execute_delete_template, h], by simp [execute_edit_template, h]⟩
  · intro t h
    refine ⟨?_, ?_⟩
    · intro hu
      constructor
      · simp only [execute_delete_template, h]
        rw [if_pos hu]
      · simp only [execute_edit_template, h]
        rw [if_pos hu]
    · intro hok
      have hc : ¬(sender ≠ t.creator ∧ sender ≠ st.config.admin_address) := by
        rcases hok with h1 | h2
        · intro hcon; exact hcon.1 h1
        · intro hcon; exact hcon.2 h2
      constructor
      · refine ⟨{ st with templates := storeDelete st.templates id }, ?_, ?_⟩
        · simp only [execute_delete_template, h]
          rw [if_neg hc]
        · exact storeLookup_delete_self st.templates id
      · refine ⟨{ st with templates := storePut st.templates id { id := id, title := title, items := items, creator := t.creator } }, ?_, ?_⟩
        · simp only [execute_edit_template, h]
          rw [if_neg hc]
        · exact storeLookup_put_self st.templates id _

/-- Witness for C6: a stranger is refused, the creator may delete. -/
theorem template_auth_spec_witness :
    (execute_delete_template stateWithTemplate "bob" 0 =
        Except.error ContractError.unauthorized ∧
      execute_edit_template stateWithTemplate "bob" 0 "N" [] =
        Except.error ContractError.unauthorized) ∧
    (∃ st', execute_delete_template stateWithTemplate "alice" 0 = Except.ok st' ∧
      storeLookup st'.templates 0 = none) :=
  ⟨((template_auth_spec stateWithTemplate "bob" 0 "N" []).2 templateAB
      (by decide)).1 (by decide),
   (((template_auth_spec stateWithTemplate "alice" 0 "N" []).2 templateAB
      (by decide)).2 (Or.inl (by decide))).1⟩

/-- **C7.** A successful `edit` stores, at the edited id, a template whose
`creator` is copied from the pre-existing record (never from the caller) and
whose `id` equals the pre-existing record's id; only `title` and `items` take
the caller's values, and nothing else in the store changes. The hypothesis
`old.id = id` is the stored-record well-formedness that `create` and `edit`
themselves maintain (both store a template whose `id` field equals its key). -/
theorem edit_preserves_id_creator (st : ContractState) (sender : String) (id : Nat)
    (title : String) (items : List TierlistItem) (old : TierlistTemplate)
    (st' : ContractState)
    (hold : storeLookup st.templates id = some old) (hid : old.id = id)
    (hok : execute_edit_template st sender id title items = Except.ok st') :
    ∃ newT, storeLookup st'.templates id = some newT ∧
      newT.creator = old.creator ∧ newT.id = old.id ∧
      newT.title = title ∧ newT.items = items ∧
      (∀ k, k ≠ id → storeLookup st'.templates k = storeLookup st.templates k) ∧
      st'.tierlists = st.tierlists ∧ st'.next_id = st.next_id ∧
      st'.config = st.config := by
  simp only [execute_edit_template, hold] at hok
  by_cases hc : sender ≠ old.creator ∧ sender ≠ st.config.admin_address
  · rw [if_pos hc] at hok
    cases hok
  · rw [if_neg hc] at hok
    have hst : { st with templates := storePut st.templates id { id := id, title := title, items := items, creator := old.creator } } = st' :=
      Except.ok.inj hok
    subst hst
    refine ⟨{ id := id, title := title, items := items, creator := old.creator },
      storeLookup_put_self st.templates id _, rfl, hid.symm, rfl, rfl, ?_, rfl, rfl, rfl⟩
    intro k hk
    exact storeLookup_put_ne st.templates id k _ hk

/-- The state produced by the admin editing template 0 of `stateWithTemplate`. -/
def editedState : ContractState :=
  { config := { admin_address := "admin" }, next_id := some 1,
    templates := [(0, { id := 0, title := "New", items := [itemA], creator := "alice" })],
    tierlists := [] }

/-- Witness for C7: the admin ("admin", not the creator "alice") edits, and
the stored record keeps creator "alice" and id 0. -/
theorem edit_preserves_id_creator_witness :
    ∃ newT, storeLookup editedState.templates 0 = some newT ∧
      newT.creator = templateAB.creator ∧ newT.id = templateAB.id ∧
      newT.title = "New" ∧ newT.items = [itemA] ∧
      (∀ k, k ≠ 0 →
        storeLookup editedState.templates k = storeLookup stateWithTemplate.templates k) ∧
      editedState.tierlists = stateWithTemplate.tierlists ∧
      editedState.next_id = stateWithTemplate.next_id ∧
      editedState.config = stateWithTemplate.config :=
  edit_preserves_id_creator stateWithTemplate "admin" 0 "New" [itemA] templateAB
    editedState (by decide) (by decide) rfl

/-! ### Inversion lemmas for successful executions -/

theorem delete_result (st : ContractState) (s : String) (id : Nat) (st' : ContractState)
    (h : execute_delete_template st s id = Except.ok st') :
    st' = { st with templates := storeDelete st.templates id } := by
  cases hl : storeLookup st.templates id with
  | none =>
    simp only [execute_delete_template, hl] at h
    exact Except.noConfusion h
  | some t =>
    simp only [execute_delete_template, hl] at h
    by_cases hc : s ≠ t.creator ∧ s ≠ st.config.admin_address
    · rw [if_pos hc] at h
      exact Except.noConfusion h
    · rw [if_neg hc] at h
      exact (Except.ok.inj h).symm

theorem edit_result (st : ContractState) (s : String) (id : Nat) (title : String)
    (items : List TierlistItem) (st' : ContractState)
    (h : execute_edit_template st s id title items = Except.ok st') :
    ∃ old, storeLookup st.templates id = some old ∧
      st' = { st with templates := storePut st.templates id { id := id, title := title, items := items, creator := old.creator } } := by
  cases hl : storeLookup st.templates id with
  | none =>
    simp only [execute_edit_template, hl] at h
    exact Except.noConfusion h
  | some t =>
    simp only [execute_edit_template, hl] at h
    by_cases hc : s ≠ t.creator ∧ s ≠ st.config.admin_address
    · rw [if_pos hc] at h
      exact Except.noConfusion h
    · rw [if_neg hc] at h
      exact ⟨t, rfl, (Except.ok.inj h).symm⟩

theorem save_result (st : ContractState) (s : String) (tl : Tierlist) (st' : ContractState)
    (h : execute_save_tierlist st s tl = Except.ok st') :
    st'.templates = st.templates ∧ st'.next_id = st.next_id := by
  cases hl : storeLookup st.templates tl.template_id with
  | none =>
    simp only [execute_save_tierlist, hl] at h
    exact Except.noConfusion h
  | some t =>
    simp only [execute_save_tierlist, hl] at h
    by_cases hv : tl.validate_against_template t = true
    · rw [if_pos hv] at h
      rw [← Except.ok.inj h]
      exact ⟨rfl, rfl⟩
    · rw [if_neg hv] at h
      exact Except.noConfusion h

/-! ### The id-allocation invariant -/

theorem applyOp_delete_inv (st : ContractState) (s : String) (id : Nat) (c : Nat)
    (hInv : ∀ e ∈ st.templates, e.1 < c) :
    nextIdVal (applyOp st (Op.deleteTemplate s id)) = nextIdVal st ∧
    ∀ e ∈ (applyOp st (Op.deleteTemplate s id)).templates, e.1 < c := by
  simp only [applyOp]
  cases h : execute_delete_template st s id with
  | error err => exact ⟨rfl, hInv⟩
  | ok st' =>
    have hr := delete_result st s id st' h
    subst hr
    exact ⟨rfl, fun e he => hInv e (storeDelete_subset st.templates id e he)⟩

theorem applyOp_edit_inv (st : ContractState) (s : String) (id : Nat) (title : String)
    (items : List TierlistItem) (c : Nat)
    (hInv : ∀ e ∈ st.templates, e.1 < c) :
    nextIdVal (applyOp st (Op.editTemplate s id title items)) = nextIdVal st ∧
    ∀ e ∈ (applyOp st (Op.editTemplate s id title items)).templates, e.1 < c := by
  simp only [applyOp]
  cases h : execute_edit_template st s id title items with
  | error err => exact ⟨rfl, hInv⟩
  | ok st' =>
    obtain ⟨old, hold, hr⟩ := edit_result st s id title items st' h
    subst hr
    refine ⟨rfl, fun e he => ?_⟩
    rcases mem_storePut st.templates id _ e he with h1 | h2
    · have hidlt : id < c := hInv (id, old) (storeLookup_mem st.templates id old hold)
      rw [h1]
      exact hidlt
    · exact hInv e h2

theorem applyOp_save_inv (st : ContractState) (s : String) (tl : Tierlist) (c : Nat)
    (hInv : ∀ e ∈ st.templates, e.1 < c) :
    nextIdVal (applyOp st (Op.saveTierlist s tl)) = nextIdVal st ∧
    ∀ e ∈ (applyOp st (Op.saveTierlist s tl)).templates, e.1 < c := by
  simp only [applyOp]
  cases h : execute_save_tierlist st s tl with
  | error err => exact ⟨rfl, hInv⟩
  | ok st' =>
    obtain ⟨ht, hn⟩ := save_result st s tl st' h
    constructor
    · simp [nextIdVal, hn]
    · rw [ht]; exact hInv

theorem runOps_inv (ops : List Op) : ∀ st : ContractState,
    (∀ e ∈ st.templates, e.1 < nextIdVal st) →
    nextIdVal st + countCreates ops < U64_MOD →
    nextIdVal (runOps st ops) = nextIdVal st + countCreates ops ∧
    ∀ e ∈ (runOps st ops).templates, e.1 < nextIdVal st + countCreates ops := by
  induction ops with
  | nil =>
    intro st hInv _
    constructor
    · simp [runOps, countCreates]
    · simpa [runOps, countCreates] using hInv
  | cons op ops ih =>
    intro st hInv hbound
    have hrun : runOps st (op :: ops) = runOps (applyOp st op) ops := rfl
    cases op with
    | create s t i =>
      have hcnt : countCreates (Op.create s t i :: ops) = countCreates ops + 1 := by
        simp [countCreates, List.countP_cons]
      have hone : nextIdVal st + 1 < U64_MOD := by omega
      have hnext : nextIdVal (applyOp st (Op.create s t i)) = nextIdVal st + 1 := by
        simp only [applyOp, execute_create_template, nextIdVal, Option.getD_some]
        exact Nat.mod_eq_of_lt hone
      have hInv' : ∀ e ∈ (applyOp st (Op.create s t i)).templates,
          e.1 < nextIdVal (applyOp st (Op.create s t i)) := by
        intro e he
        rw [hnext]
        simp only [applyOp, execute_create_template] at he
        rcases mem_storePut st.templates (nextIdVal st) _ e he with h1 | h2
        · rw [h1]; exact Nat.lt_succ_self _
        · exact Nat.lt_succ_of_lt (hInv e h2)
      have hbound' : nextIdVal (applyOp st (Op.create s t i)) + countCreates ops < U64_MOD := by
        omega
      obtain ⟨h1, h2⟩ := ih (applyOp st (Op.create s t i)) hInv' hbound'
      rw [hrun]
      constructor
      · rw [h1]; omega
      · intro e he
        have h3 := h2 e he
        omega
    | deleteTemplate s id =>
      have hcnt : countCreates (Op.deleteTemplate s id :: ops) = countCreates ops := by
        simp [countCreates, List.countP_cons]
      obtain ⟨hnext, hInv'⟩ := applyOp_delete_inv st s id (nextIdVal st) hInv
      have hInv'' : ∀ e ∈ (applyOp st (Op.deleteTemplate s id)).templates,
          e.1 < nextIdVal (applyOp st (Op.deleteTemplate s id)) := by
        rw [hnext]; exact hInv'
      have hbound' : nextIdVal (applyOp st (Op.deleteTemplate s id)) + countCreates ops < U64_MOD := by
        omega
      obtain ⟨h1, h2⟩ := ih (applyOp st (Op.deleteTemplate s id)) hInv'' hbound'
      rw [hrun]
      constructor
      · rw [h1]; omega
      · intro e he
        have h3 := h2 e he
        omega
    | editTemplate s id title items =>
      have hcnt : countCreates (Op.editTemplate s id title items :: ops) = countCreates ops := by
        simp [countCreates, List.countP_cons]
      obtain ⟨hnext, hInv'⟩ := applyOp_edit_inv st s id title items (nextIdVal st) hInv
      have hInv'' : ∀ e ∈ (applyOp st (Op.editTemplate s id title items)).templates,
          e.1 < nextIdVal (applyOp st (Op.editTemplate s id title items)) := by
        rw [hnext]; exact hInv'
      have hbound' : nextIdVal (applyOp st (Op.editTemplate s id title items)) + countCreates ops < U64_MOD := by
        omega
      obtain ⟨h1, h2⟩ := ih (applyOp st (Op.editTemplate s id title items)) hInv'' hbound'
      rw [hrun]
      constructor
      · rw [h1]; omega
      · intro e he
        have h3 := h2 e he
        omega
    | saveTierlist s tl =>
      have hcnt : countCreates (Op.saveTierlist s tl :: ops) = countCreates ops := by
        simp [countCreates, List.countP_cons]
      obtain ⟨hnext, hInv'⟩ := applyOp_save_inv st s tl (nextIdVal st) hInv
      have hInv'' : ∀ e ∈ (applyOp st (Op.saveTierlist s tl)).templates,
          e.1 < nextIdVal (applyOp st (Op.saveTierlist s tl)) := by
        rw [hnext]; exact hInv'
      have hbound' : nextIdVal (applyOp st (Op.saveTierlist s tl)) + countCreates ops < U64_MOD := by
        omega
      obtain ⟨h1, h2⟩ := ih (applyOp st (Op.saveTierlist s tl)) hInv'' hbound'
      rw [hrun]
      constructor
      · rw [h1]; omega
      · intro e he
        have h3 := h2 e he
        omega

/-- **C9.** Starting from the initial state, after any trace with `n` create
operations (interleaved with any deletes, edits and saves, and fewer than
2^64 creates in total, the u64 counter's range): the counter reads `n`, every
stored template key is strictly below `n`, no template is stored at `n` (so
the next create never overwrites), and the next create stores its template at
exactly id `n`. Instantiated at every prefix of a trace this gives that each
create's id is strictly greater than all earlier ones, the first being 0. -/
theorem create_id_allocation (admin : String) (ops : List Op)
    (h : countCreates ops < U64_MOD) :
    nextIdVal (runOps (initialState admin) ops) = countCreates ops ∧
    (∀ e ∈ (runOps (initialState admin) ops).templates, e.1 < countCreates ops) ∧
    storeLookup (runOps (initialState admin) ops).templates (countCreates ops) = none ∧
    (∀ sender title items,
      storeLookup (applyOp (runOps (initialState admin) ops) (Op.create sender title items)).templates (countCreates ops) =
        some { id := countCreates ops, title := title, items := items, creator := sender }) := by
  have h0 : nextIdVal (initialState admin) = 0 := rfl
  have hInv : ∀ e ∈ (initialState admin).templates, e.1 < nextIdVal (initialState admin) := by
    intro e he
    simp [initialState] at he
  have hb : nextIdVal (initialState admin) + countCreates ops < U64_MOD := by
    simpa [h0] using h
  obtain ⟨h1, h2⟩ := runOps_inv ops (initialState admin) hInv hb
  rw [h0, Nat.zero_add] at h1 h2
  refine ⟨h1, h2, ?_, ?_⟩
  · exact storeLookup_eq_none _ _ (fun e he => Nat.ne_of_lt (h2 e he))
  · intro sender title items
    simp only [applyOp, execute_create_template]
    rw [h1]
    exact storeLookup_put_self _ _ _

/-- A concrete trace: create, delete the created template, create again. -/
def opsW : List Op :=
  [Op.create "u" "T1" [], Op.deleteTemplate "u" 0, Op.create "u" "T2" []]

/-- Witness for C9 on `opsW`: two creates have happened (one later deleted),
the counter reads 2, all stored keys are below 2, nothing is stored at 2, and
the next create allocates id 2. -/
theorem create_id_allocation_witness :
    nextIdVal (runOps (initialState "admin") opsW) = countCreates opsW ∧
    (∀ e ∈ (runOps (initialState "admin") opsW).templates, e.1 < countCreates opsW) ∧
    storeLookup (runOps (initialState "admin") opsW).templates (countCreates opsW) = none ∧
    (∀ sender title items,
      storeLookup (applyOp (runOps (initialState "admin") opsW) (Op.create sender title items)).templates (countCreates opsW) =
        some { id := countCreates opsW, title := title, items := items, creator := sender }) :=
  create_id_allocation "admin" opsW (by decide)

/-- The address validator used by the C10 witness: rejects exactly "bad". -/
def apiW (s : String) : Bool := s != "bad"

/-- **C10.** `query_tierlist` and `query_tierlists_by_address` first
`unwrap()` the host address validator's result: for every address the
validator rejects they panic (modelled by `none`), and for every address it
accepts they return a value. -/
theorem query_address_validation (api : String → Bool) (st : ContractState)
    (address : String) (id : Nat) (start_after limit : Option Nat) :
    (api address = false →
      query_tierlist api st address id = none ∧
      query_tierlists_by_address api st address start_after limit = none) ∧
    (api address = true →
      (∃ r, query_tierlist api st address id = some r) ∧
      (∃ l, query_tierlists_by_address api st address start_after limit = some l)) := by
  constructor
  · intro h
    exact ⟨by simp [query_tierlist, h], by simp [query_tierlists_by_address, h]⟩
  · intro h
    constructor
    · exact ⟨{ tierlist := storeLookup st.tierlists (address, id) }, by simp [query_tierlist, h]⟩
    · simp [query_tierlists_by_address, h]

/-- Witness for C10: the validator rejecting "bad" makes both queries panic,
and both return values for "alice". -/
theorem query_address_validation_witness :
    (query_tierlist apiW stateWithTemplate "bad" 0 = none ∧
      query_tierlists_by_address apiW stateWithTemplate "bad" none none = none) ∧
    ((∃ r, query_tierlist apiW stateWithTemplate "alice" 0 = some r) ∧
      (∃ l, query_tierlists_by_address apiW stateWithTemplate "alice" none none = some l)) :=
  ⟨(query_address_validation apiW stateWithTemplate "bad" 0 none none).1 (by decide),
   (query_address_validation apiW stateWithTemplate "alice" 0 none none).2 (by decide)⟩
